import Mathlib

/-!
Verification of the desk-usage visualization pipeline (`visualize_desk.py`).

The pipeline is: `load_data` (CSV rows to samples), `calculate_durations`
(adjacent same-day sample pairs to intervals), `aggregate_by_day` (intervals
to per-date totals), and the summary-statistics portion of
`create_visualization`.

Embedding choices:
* a `datetime` value is modelled as an integer count of seconds since the
  epoch; its calendar date (`.date()` in the source) is the floor division of
  that count by 86400, which agrees with `datetime.fromisoformat` building a
  timestamp as `days * 86400 + second-of-day`;
* float minutes are modelled as exact rationals (`duration = seconds / 60`);
* a CSV row (a `csv.DictReader` dict) is an association list from column
  names to field strings; a missing column is a failed lookup (`KeyError`);
* Python exceptions escaping a function are modelled with `Except`:
  the loop in `load_data` aborts at the first row whose field fails to
  parse, and the summary statistics fail on an empty day list (`min` of an
  empty sequence raises `ValueError`) or on a zero total time
  (`ZeroDivisionError`).
-/

namespace Desk

/-- Calendar date of a timestamp (seconds since epoch): `datetime.date()`,
modelled as the day number `t // 86400`. -/
def dateOf (t : Int) : Int := t.fdiv 86400

/-- Civil date to day number relative to 1970-01-01 (the standard
days-from-civil computation; models the date arithmetic inside
`datetime.fromisoformat`). -/
def daysFromCivil (y m d : Nat) : Int :=
  let yAdj : Int := if m ≤ 2 then (y : Int) - 1 else (y : Int)
  let era : Int := yAdj.fdiv 400
  let yoe : Int := yAdj - era * 400
  let mp : Int := ((m : Int) + 9) % 12
  let doy : Int := (153 * mp + 2).fdiv 5 + (d : Int) - 1
  let doe : Int := yoe * 365 + yoe.fdiv 4 - yoe.fdiv 100 + doy
  era * 146097 + doe - 719468

/-- Gregorian leap-year test. -/
def isLeap (y : Nat) : Bool := (y % 4 == 0 && y % 100 != 0) || y % 400 == 0

/-- Days in a month, for validating a parsed calendar date. -/
def daysInMonth (y m : Nat) : Nat :=
  if m = 2 then (if isLeap y then 29 else 28)
  else if m = 4 ∨ m = 6 ∨ m = 9 ∨ m = 11 then 30
  else 31

/-- Value of a nonempty all-digit character list, else `none`. -/
def digitsToNat : List Char → Option Nat
  | [] => none
  | cs => if cs.all Char.isDigit
          then some (cs.foldl (fun n c => 10 * n + (c.toNat - 48)) 0)
          else none

/-- Model of `int(s)` for a decimal string: optional sign then digits.
`none` models the `ValueError` that `int` raises on anything else. -/
def pyInt : String → Option Int :=
  fun s =>
    match s.toList with
    | '-' :: cs => (digitsToNat cs).map (fun n => -(n : Int))
    | '+' :: cs => (digitsToNat cs).map (fun n => (n : Int))
    | cs => (digitsToNat cs).map (fun n => (n : Int))

/-- Model of the optional time-of-day part of an ISO-8601 string:
empty, or a `T`/space separator followed by `HH:MM` or `HH:MM:SS`.
Returns the second-of-day. -/
def parseTimePart : List Char → Option Nat
  | [] => some 0
  | sep :: h1 :: h2 :: ':' :: m1 :: m2 :: rest =>
    if sep = 'T' ∨ sep = ' ' then do
      let h ← digitsToNat [h1, h2]
      let mi ← digitsToNat [m1, m2]
      if h ≤ 23 ∧ mi ≤ 59 then
        match rest with
        | [] => some (h * 3600 + mi * 60)
        | ':' :: s1 :: s2 :: [] => do
          let sec ← digitsToNat [s1, s2]
          if sec ≤ 59 then some (h * 3600 + mi * 60 + sec) else none
        | _ => none
      else none
    else none
  | _ => none

/-- Model of `datetime.fromisoformat`: `YYYY-MM-DD` with an optional
time-of-day part, yielding seconds since the epoch; `none` models the
`ValueError` raised on an invalid string. -/
def fromIsoformat : String → Option Int :=
  fun s =>
    match s.toList with
    | y1 :: y2 :: y3 :: y4 :: '-' :: m1 :: m2 :: '-' :: d1 :: d2 :: rest => do
      let y ← digitsToNat [y1, y2, y3, y4]
      let mo ← digitsToNat [m1, m2]
      let da ← digitsToNat [d1, d2]
      if 1 ≤ mo ∧ mo ≤ 12 ∧ 1 ≤ da ∧ da ≤ daysInMonth y mo then
        let sec ← parseTimePart rest
        some (daysFromCivil y mo da * 86400 + (sec : Int))
      else none
    | _ => none

/-- Constant of the source: `STANDING_THRESHOLD = 900  # mm`. -/
def STANDING_THRESHOLD : Int := 900

/-- A loaded sample: the dict
`{"timestamp": ..., "height": ..., "is_standing": ...}` built by
`load_data`. -/
structure Sample where
  timestamp : Int
  height : Int
  is_standing : Bool
deriving DecidableEq, Repr

/-- A CSV row as produced by `csv.DictReader`: column name to field text. -/
abbrev Row : Type := List (String × String)

/-- Decidable equality of `Except` results, for evaluating the model on
concrete inputs. -/
instance {ε α : Type} [DecidableEq ε] [DecidableEq α] :
    DecidableEq (Except ε α)
  | .error e, .error e' =>
    if h : e = e' then .isTrue (by rw [h])
    else .isFalse (by intro hc; cases hc; exact h rfl)
  | .error _, .ok _ => .isFalse (by intro hc; cases hc)
  | .ok _, .error _ => .isFalse (by intro hc; cases hc)
  | .ok a, .ok b =>
    if h : a = b then .isTrue (by rw [h])
    else .isFalse (by intro hc; cases hc; exact h rfl)

/-- The errors that can escape the body of the `load_data` loop:
`KeyError` when a column is absent from a row, `ValueError` when
`datetime.fromisoformat` or `int` rejects the field text. Neither carries
the index of the offending row. -/
inductive LoadError where
  | keyError (field : String)
  | valueError (msg : String)
deriving DecidableEq, Repr

/-- Body of the `load_data` loop for one row: look up and parse the
`timestamp` and `height_mm` columns and build the sample dict with
`is_standing = height >= STANDING_THRESHOLD`. -/
def parseRow (row : Row) : Except LoadError Sample :=
  match List.lookup "timestamp" row with
  | none => .error (.keyError "timestamp")
  | some tsStr =>
    match fromIsoformat tsStr with
    | none => .error (.valueError ("Invalid isoformat string: " ++ tsStr))
    | some ts =>
      match List.lookup "height_mm" row with
      | none => .error (.keyError "height_mm")
      | some hStr =>
        match pyInt hStr with
        | none =>
          .error (.valueError ("invalid literal for int with base 10: " ++ hStr))
        | some h =>
          .ok { timestamp := ts
                height := h
                is_standing := decide (STANDING_THRESHOLD ≤ h) }

/-- Loader `load_data`: parse each row in order, appending to `data`; a parse
exception aborts the whole loop, so the result is either every sample or
the error of the first bad row — never a partial list. -/
def load_data : List Row → Except LoadError (List Sample)
  | [] => .ok []
  | r :: rest =>
    match parseRow r with
    | .error e => .error e
    | .ok s =>
      match load_data rest with
      | .error e => .error e
      | .ok ss => .ok (s :: ss)

/-- Index of the first row that `parseRow` rejects, if any. -/
def firstBadIdx : List Row → Option Nat
  | [] => none
  | r :: rest =>
    match parseRow r with
    | .error _ => some 0
    | .ok _ => (firstBadIdx rest).map (· + 1)

/-- An interval between two adjacent same-day samples: the dict built by
`calculate_durations` (`end` is spelled `end_`). -/
structure Interval where
  start : Int
  end_ : Int
  duration_min : ℚ
  is_standing : Bool
  height : Int
deriving DecidableEq, Repr

/-- The interval built from adjacent samples `current` and `next_entry`:
duration is elapsed minutes capped at 60, state and height taken from
`current`. -/
def mkInterval (current next_entry : Sample) : Interval :=
  { start := current.timestamp
    end_ := next_entry.timestamp
    duration_min :=
      min (((next_entry.timestamp - current.timestamp : Int) : ℚ) / 60) 60
    is_standing := current.is_standing
    height := current.height }

/-- Deriver `calculate_durations`: walk adjacent pairs; emit an interval only when
both samples fall on the same calendar date. -/
def calculate_durations : List Sample → List Interval
  | current :: next_entry :: rest =>
    if dateOf current.timestamp = dateOf next_entry.timestamp then
      mkInterval current next_entry :: calculate_durations (next_entry :: rest)
    else
      calculate_durations (next_entry :: rest)
  | _ => []

/-- One accumulated day of totals: the defaultdict value
`{"standing": 0, "sitting": 0, "entries": []}`. -/
structure DayAgg where
  standing : ℚ
  sitting : ℚ
  entries : List Interval
deriving DecidableEq, Repr

/-- The defaultdict factory value. -/
def newDayAgg : DayAgg := { standing := 0, sitting := 0, entries := [] }

/-- The aggregate mapping: a date-keyed association list in insertion
order (Python dicts preserve insertion order). -/
abbrev Daily : Type := List (Int × DayAgg)

/-- Lookup in the aggregate mapping. -/
def lookupDay : Daily → Int → Option DayAgg
  | [], _ => none
  | (k, v) :: rest, day => if k = day then some v else lookupDay rest day

/-- Key list of the aggregate mapping, in insertion order. -/
def keysOf (m : Daily) : List Int := m.map Prod.fst

/-- Get-or-insert-default update at a key, preserving the position of an
existing key and appending a fresh one (defaultdict access + mutation). -/
def updateAssoc (m : Daily) (k : Int) (f : DayAgg → DayAgg) : Daily :=
  match m with
  | [] => [(k, f newDayAgg)]
  | (k', v) :: rest =>
    if k' = k then (k', f v) :: rest else (k', v) :: updateAssoc rest k f

/-- Fold one interval into the aggregate of its day: add its duration to the
standing or sitting total and append it to `entries`. -/
def foldInterval (d : Interval) (agg : DayAgg) : DayAgg :=
  if d.is_standing then
    { agg with standing := agg.standing + d.duration_min
               entries := agg.entries ++ [d] }
  else
    { agg with sitting := agg.sitting + d.duration_min
               entries := agg.entries ++ [d] }

/-- One iteration of the `aggregate_by_day` loop. -/
def aggStep (daily : Daily) (d : Interval) : Daily :=
  updateAssoc daily (dateOf d.start) (foldInterval d)

/-- Aggregator `aggregate_by_day`: fold the intervals into a date-keyed mapping. -/
def aggregate_by_day (durations : List Interval) : Daily :=
  durations.foldl aggStep []

/-- Total standing minutes contributed to `day` by a list of intervals
(characterization of the `standing` field of the aggregator). -/
def standingSum (l : List Interval) (day : Int) : ℚ :=
  (l.map (fun d =>
    if dateOf d.start = day ∧ d.is_standing = true then d.duration_min
    else 0)).sum

/-- Total sitting minutes contributed to `day` by a list of intervals. -/
def sittingSum (l : List Interval) (day : Int) : ℚ :=
  (l.map (fun d =>
    if dateOf d.start = day ∧ d.is_standing = false then d.duration_min
    else 0)).sum

/-- The intervals of the list whose start falls on `day`, in list
order. -/
def intervalsOn (l : List Interval) (day : Int) : List Interval :=
  l.filter (fun d => decide (dateOf d.start = day))

/-- Folding a whole interval list into the aggregate of one day. -/
def applyAll (a : DayAgg) (l : List Interval) (day : Int) : DayAgg :=
  { standing := a.standing + standingSum l day
    sitting := a.sitting + sittingSum l day
    entries := a.entries ++ intervalsOn l day }

/-- Insert into a sorted list of dates. -/
def insertInt (x : Int) : List Int → List Int
  | [] => [x]
  | y :: ys => if x ≤ y then x :: y :: ys else y :: insertInt x ys

/-- Sorting of the mapping keys, as in `sorted(...)`. -/
def sortInts : List Int → List Int
  | [] => []
  | x :: xs => insertInt x (sortInts xs)

/-- The unguarded runtime faults the summary code can raise. -/
inductive PyError where
  | valueError (msg : String)
  | zeroDivisionError
deriving DecidableEq, Repr

/-- The printed summary fields of `create_visualization`. -/
structure Summary where
  firstDay : Int
  lastDay : Int
  totalDays : Nat
  total_standing : ℚ
  total_sitting : ℚ
  standing_pct : ℚ
  sitting_pct : ℚ
  avg_standing : ℚ
  avg_sitting : ℚ
deriving DecidableEq, Repr

/-- The per-day aggregate read back from the mapping (`daily_stats[d]`;
the defaultdict would supply `newDayAgg` for an absent key). -/
def getAgg (daily : Daily) (d : Int) : DayAgg :=
  (lookupDay daily d).getD newDayAgg

/-- The summary-statistics portion of `create_visualization`
(lines 109-112 and 210-231 of the source): sort the dates, total the
standing and sitting minutes, and print range, totals, percentages and
per-day averages. `min(days)` on an empty day list raises `ValueError`
before any division; with days present but zero total time the percentage
lines raise `ZeroDivisionError`. No `EmptyDataset` guard exists. -/
def summary_stats (daily_stats : Daily) : Except PyError Summary :=
  let days := sortInts (keysOf daily_stats)
  let standing_mins := days.map (fun d => (getAgg daily_stats d).standing)
  let sitting_mins := days.map (fun d => (getAgg daily_stats d).sitting)
  let total_standing := standing_mins.sum
  let total_sitting := sitting_mins.sum
  let total_time := total_standing + total_sitting
  match days with
  | [] => .error (.valueError "min arg is an empty sequence")
  | d0 :: rest =>
    if total_time = 0 then .error .zeroDivisionError
    else
      .ok { firstDay := d0
            lastDay := List.getLastD rest d0
            totalDays := (d0 :: rest).length
            total_standing := total_standing
            total_sitting := total_sitting
            standing_pct := 100 * total_standing / total_time
            sitting_pct := 100 * total_sitting / total_time
            avg_standing := total_standing / ((d0 :: rest).length : ℚ)
            avg_sitting := total_sitting / ((d0 :: rest).length : ℚ) }

/-- The Loader → Deriver → Aggregator pipeline of `main`. -/
def run_pipeline (rows : List Row) : Except LoadError Daily :=
  match load_data rows with
  | .error e => .error e
  | .ok data => .ok (aggregate_by_day (calculate_durations data))

/-! Concrete data used by the witness theorems: the three-sample scenario of
the spec (sitting 10 min, standing capped at 60 min, all on day 0) and a
two-day pair. -/

/-- Sample at 09:00, height 850 mm (sitting). -/
def s850 : Sample := { timestamp := 32400, height := 850, is_standing := false }

/-- Sample at 09:10, height 950 mm (standing). -/
def s950 : Sample := { timestamp := 33000, height := 950, is_standing := true }

/-- Sample at 10:20, height 850 mm (sitting). -/
def s850b : Sample := { timestamp := 37200, height := 850, is_standing := false }

/-- The spec scenario: three same-day samples. -/
def exSamples : List Sample := [s850, s950, s850b]

/-- CSV rows that load to `exSamples`. -/
def exRows : List Row :=
  [[("timestamp", "1970-01-01T09:00:00"), ("height_mm", "850")],
   [("timestamp", "1970-01-01T09:10:00"), ("height_mm", "950")],
   [("timestamp", "1970-01-01T10:20:00"), ("height_mm", "850")]]

/-- A row that parses. -/
def goodRow : Row := [("timestamp", "1970-01-01T09:00:00"), ("height_mm", "850")]

/-- A row whose height field fails integer parsing. -/
def badRow : Row := [("timestamp", "1970-01-01T09:10:00"), ("height_mm", "oops")]

/-- The error `badRow` produces, independent of the position of the row. -/
def errEx : LoadError := .valueError "invalid literal for int with base 10: oops"

/-- Noon on day 0, sitting. -/
def sA : Sample := { timestamp := 43200, height := 500, is_standing := false }

/-- Noon on day 1, standing. -/
def sB : Sample := { timestamp := 129600, height := 950, is_standing := true }

/-- The day-0 aggregate of the spec scenario. -/
def aggEx : DayAgg := getAgg (aggregate_by_day (calculate_durations exSamples)) 0

/-- First interval of the spec scenario (sitting, 10 min). -/
def ivA : Interval := mkInterval s850 s950

/-- Second interval of the spec scenario (standing, capped at 60 min). -/
def ivB : Interval := mkInterval s950 s850b

/-! Theorems. -/

/-- Lemma: `calculate_durations` is the filterMap of the same-day interval builder
over the adjacent-pair list. -/
lemma calc_spec : ∀ data : List Sample,
    calculate_durations data =
      (data.zip data.tail).filterMap (fun p =>
        if dateOf p.1.timestamp = dateOf p.2.timestamp then
          some (mkInterval p.1 p.2)
        else none)
  | [] => rfl
  | [_] => rfl
  | a :: b :: rest => by
    have ih := calc_spec (b :: rest)
    simp only [calculate_durations, List.tail_cons, List.zip_cons_cons,
      List.filterMap_cons]
    by_cases hd : dateOf a.timestamp = dateOf b.timestamp <;>
      simp [hd, ih]

/-- On a chain of strictly increasing timestamps every derived duration is
nonnegative. -/
lemma durations_nonneg : ∀ data : List Sample,
    List.Chain' (fun a b => a.timestamp < b.timestamp) data →
    ∀ iv ∈ calculate_durations data, 0 ≤ iv.duration_min
  | [], _, iv, hiv => by simp [calculate_durations] at hiv
  | [_], _, iv, hiv => by simp [calculate_durations] at hiv
  | a :: b :: rest, h, iv, hiv => by
    rw [List.chain'_cons] at h
    obtain ⟨hab, h2⟩ := h
    simp only [calculate_durations] at hiv
    by_cases hd : dateOf a.timestamp = dateOf b.timestamp
    · rw [if_pos hd] at hiv
      rcases List.mem_cons.mp hiv with rfl | hiv'
      · show (0 : ℚ) ≤ min (((b.timestamp - a.timestamp : Int) : ℚ) / 60) 60
        apply le_min
        · apply div_nonneg _ (by norm_num)
          exact_mod_cast Int.sub_nonneg.2 hab.le
        · norm_num
      · exact durations_nonneg (b :: rest) h2 iv hiv'
    · rw [if_neg hd] at hiv
      exact durations_nonneg (b :: rest) h2 iv hiv

/-- C1: for every pair of adjacent samples on the same calendar date the
deriver emits exactly one interval — the output is precisely the
filterMap of the adjacent-pair list, where the `duration_min`
of the emitted interval is `min` of the elapsed minutes and `60` — and when the
timestamps are strictly increasing every emitted duration is
nonnegative. -/
theorem c1_same_day_pair_duration (data : List Sample) :
    calculate_durations data =
      (data.zip data.tail).filterMap (fun p =>
        if dateOf p.1.timestamp = dateOf p.2.timestamp then
          some { start := p.1.timestamp
                 end_ := p.2.timestamp
                 duration_min :=
                   min (((p.2.timestamp - p.1.timestamp : Int) : ℚ) / 60) 60
                 is_standing := p.1.is_standing
                 height := p.1.height }
        else none) ∧
    (List.Chain' (fun a b => a.timestamp < b.timestamp) data →
      ∀ iv ∈ calculate_durations data, 0 ≤ iv.duration_min) :=
  ⟨calc_spec data, fun h iv hiv => durations_nonneg data h iv hiv⟩

/-- Lemma: `exSamples` has strictly increasing timestamps. -/
lemma exSamples_chain :
    List.Chain' (fun a b : Sample => a.timestamp < b.timestamp) exSamples :=
  List.Chain.cons (by decide) (List.Chain.cons (by decide) List.Chain.nil)

/-- The deriver output on the spec scenario, proved without forcing the
rational payloads (both sides are identical applications). -/
lemma exDurations :
    calculate_durations exSamples = [mkInterval s850 s950, mkInterval s950 s850b] :=
  rfl

/-- Witness for C1 on the spec scenario. -/
theorem c1_witness : 0 ≤ (mkInterval s850 s950).duration_min :=
  (c1_same_day_pair_duration exSamples).2 exSamples_chain
    (mkInterval s850 s950) (exDurations ▸ List.mem_cons_self _ _)

/-- C2: every emitted interval starts and ends on the same calendar
date. -/
theorem c2_no_cross_day_interval (data : List Sample) (iv : Interval)
    (hiv : iv ∈ calculate_durations data) :
    dateOf iv.start = dateOf iv.end_ := by
  rw [calc_spec] at hiv
  obtain ⟨p, _, hmk⟩ := List.mem_filterMap.mp hiv
  by_cases hd : dateOf p.1.timestamp = dateOf p.2.timestamp
  · rw [if_pos hd] at hmk
    cases hmk
    exact hd
  · rw [if_neg hd] at hmk
    cases hmk

/-- Witness for C2 on the spec scenario. -/
theorem c2_witness : dateOf (mkInterval s850 s950).start
    = dateOf (mkInterval s850 s950).end_ :=
  c2_no_cross_day_interval exSamples (mkInterval s850 s950)
    (exDurations ▸ List.mem_cons_self _ _)

/-- C8: at most `n - 1` intervals are emitted from `n` samples, and an
empty or single-sample input yields the empty interval list. -/
theorem c8_interval_count (data : List Sample) :
    (calculate_durations data).length ≤ data.length - 1 ∧
    (data.length ≤ 1 → calculate_durations data = []) := by
  constructor
  · rw [calc_spec]
    calc ((data.zip data.tail).filterMap _).length
        ≤ (data.zip data.tail).length := List.length_filterMap_le _ _
      _ = min data.length data.tail.length := List.length_zip _ _
      _ ≤ data.tail.length := min_le_right _ _
      _ = data.length - 1 := List.length_tail _
  · intro h
    match data with
    | [] => rfl
    | [_] => rfl
    | _ :: _ :: _ => simp [List.length_cons] at h

/-- Witness for C8 on a single-sample input. -/
theorem c8_witness : calculate_durations [s850] = [] :=
  (c8_interval_count [s850]).2 (by decide)

/-- A sample accepted by `parseRow` carries
`is_standing = decide (STANDING_THRESHOLD ≤ height)`. -/
lemma parseRow_ok_standing (r : Row) (s : Sample) (h : parseRow r = .ok s) :
    s.is_standing = decide (STANDING_THRESHOLD ≤ s.height) := by
  unfold parseRow at h
  split at h
  · cases h
  split at h
  · cases h
  split at h
  · cases h
  split at h
  · cases h
  cases h
  rfl

/-- Every sample produced by `load_data` carries
`is_standing = decide (STANDING_THRESHOLD ≤ height)`. -/
lemma load_data_standing : ∀ (rows : List Row) (samples : List Sample),
    load_data rows = .ok samples →
    ∀ s ∈ samples, s.is_standing = decide (STANDING_THRESHOLD ≤ s.height)
  | [], samples, h, s, hs => by
    cases h
    cases hs
  | r :: rest, samples, h, s, hs => by
    unfold load_data at h
    split at h
    · cases h
    split at h
    · cases h
    cases h
    rcases List.mem_cons.mp hs with rfl | hs'
    · exact parseRow_ok_standing r s (by assumption)
    · exact load_data_standing rest _ (by assumption) s hs'

/-- C5: a loaded sample is standing exactly when its height is at least
900 mm; in particular height 900 is standing. -/
theorem c5_standing_threshold (rows : List Row) (samples : List Sample)
    (h : load_data rows = .ok samples) :
    ∀ s ∈ samples, (s.is_standing = true ↔ 900 ≤ s.height) := by
  intro s hs
  rw [load_data_standing rows samples h s hs]
  exact decide_eq_true_iff

/-- Witness for C5: a row of height exactly 900 loads as standing. -/
theorem c5_witness :
    ((⟨32400, 900, true⟩ : Sample).is_standing = true ↔
      900 ≤ (⟨32400, 900, true⟩ : Sample).height) :=
  c5_standing_threshold
    [[("timestamp", "1970-01-01T09:00:00"), ("height_mm", "900")]]
    [⟨32400, 900, true⟩] (by decide) _ (List.mem_cons_self _ _)

/-- The whole load fails with the parse error of the first bad row. -/
theorem c4_amended_whole_load_fails (rows : List Row) (i : Nat) (r : Row)
    (e : LoadError) (hget : rows.get? i = some r)
    (hfst : firstBadIdx rows = some i) (herr : parseRow r = .error e) :
    load_data rows = .error e := by
  induction rows generalizing i with
  | nil => cases hfst
  | cons hd tl ih =>
    unfold firstBadIdx at hfst
    split at hfst
    · cases hfst
      simp only [List.get?] at hget
      cases hget
      simp [load_data, herr]
    · rename_i s heq
      obtain ⟨j, hj, rfl⟩ := Option.map_eq_some'.mp hfst
      have htl : load_data tl = .error e := ih j (by simpa using hget) hj
      simp [load_data, heq, htl]

/-- Witness for the amended C4: the single bad row aborts the load with
its parse error. -/
theorem c4_witness : load_data [badRow] = .error errEx :=
  c4_amended_whole_load_fails [badRow] 0 badRow errEx (by decide) (by decide)
    (by decide)

/-- C4 counterexample: no function can read the position of the
offending record off the load error — the same error value arises with the bad
record at position 0 and at position 1. -/
theorem c4_counterexample :
    ¬ ∃ pos : LoadError → Nat,
        ∀ (rows : List Row) (e : LoadError) (i : Nat),
          load_data rows = .error e → firstBadIdx rows = some i →
          pos e = i := by
  rintro ⟨pos, hpos⟩
  have h0 : pos errEx = 0 := hpos [badRow] errEx 0 (by decide) (by decide)
  have h1 : pos errEx = 1 :=
    hpos [goodRow, badRow] errEx 1 (by decide) (by decide)
  omega

/-- C7: the Loader → Deriver → Aggregator pipeline is deterministic — two
runs on the same row list give the same result, hence the same key set
and the same per-date aggregates. -/
theorem c7_pipeline_deterministic (rows rows' : List Row)
    (h : rows = rows') :
    run_pipeline rows = run_pipeline rows' ∧
    ∀ m m', run_pipeline rows = .ok m → run_pipeline rows' = .ok m' →
      keysOf m = keysOf m' ∧ ∀ day, lookupDay m day = lookupDay m' day := by
  subst h
  refine ⟨rfl, fun m m' h1 h2 => ?_⟩
  rw [h1] at h2
  cases h2
  exact ⟨rfl, fun _ => rfl⟩

/-- Lemma: `exRows` loads to `exSamples`. -/
lemma exRows_load : load_data exRows = .ok exSamples := by decide

/-- Witness for C7 at the spec scenario input. -/
theorem c7_witness :
    keysOf (aggregate_by_day (calculate_durations exSamples))
      = keysOf (aggregate_by_day (calculate_durations exSamples)) ∧
    lookupDay (aggregate_by_day (calculate_durations exSamples)) 0
      = lookupDay (aggregate_by_day (calculate_durations exSamples)) 0 := by
  have hrun : run_pipeline exRows
      = .ok (aggregate_by_day (calculate_durations exSamples)) := by
    unfold run_pipeline
    rw [exRows_load]
  have h := (c7_pipeline_deterministic exRows exRows rfl).2 _ _ hrun hrun
  exact ⟨h.1, h.2 0⟩

/-- Lookup after a get-or-insert-default update. -/
lemma lookupDay_updateAssoc (m : Daily) (k : Int) (f : DayAgg → DayAgg)
    (day : Int) :
    lookupDay (updateAssoc m k f) day =
      if k = day then some (f (getAgg m k)) else lookupDay m day := by
  induction m with
  | nil =>
    by_cases h : k = day <;> simp [updateAssoc, lookupDay, getAgg, h]
  | cons p rest ih =>
    obtain ⟨k', v⟩ := p
    by_cases h1 : k' = k
    · subst h1
      by_cases h2 : k' = day <;>
        simp [updateAssoc, lookupDay, getAgg, h2]
    · by_cases h2 : k' = day
      · subst h2
        have hk : ¬k = k' := fun hc => h1 hc.symm
        simp [updateAssoc, lookupDay, h1, hk]
      · simp [updateAssoc, lookupDay, getAgg, h1, h2, ih]

/-- Folding the empty list changes nothing. -/
lemma applyAll_nil (a : DayAgg) (day : Int) : applyAll a [] day = a := by
  cases a
  simp [applyAll, standingSum, sittingSum, intervalsOn]

/-- Folding an interval of the day then a list equals folding the
consed list. -/
lemma applyAll_cons_match (a : DayAgg) (d : Interval) (rest : List Interval)
    (day : Int) (hd : dateOf d.start = day) :
    applyAll (foldInterval d a) rest day = applyAll a (d :: rest) day := by
  by_cases hs : d.is_standing = true
  · simp [applyAll, foldInterval, standingSum, sittingSum, intervalsOn, hd,
      hs, add_assoc]
  · simp only [Bool.not_eq_true] at hs
    simp [applyAll, foldInterval, standingSum, sittingSum, intervalsOn, hd,
      hs, add_assoc]

/-- An interval of another day does not affect the fold for `day`. -/
lemma applyAll_cons_skip (a : DayAgg) (d : Interval) (rest : List Interval)
    (day : Int) (hd : ¬dateOf d.start = day) :
    applyAll a (d :: rest) day = applyAll a rest day := by
  simp [applyAll, standingSum, sittingSum, intervalsOn, hd]

/-- Main loop invariant of `aggregate_by_day`: lookup after folding a
list into any accumulator. -/
lemma lookup_foldl : ∀ (l : List Interval) (acc : Daily) (day : Int),
    lookupDay (l.foldl aggStep acc) day =
      match lookupDay acc day with
      | some a => some (applyAll a l day)
      | none =>
        if intervalsOn l day = [] then none
        else some (applyAll newDayAgg l day)
  | [], acc, day => by
    cases h : lookupDay acc day <;> simp [h, applyAll_nil, intervalsOn]
  | d :: rest, acc, day => by
    have ih := lookup_foldl rest (aggStep acc d) day
    have hstep := lookupDay_updateAssoc acc (dateOf d.start) (foldInterval d) day
    simp only [List.foldl_cons]
    rw [ih]
    show (match lookupDay (aggStep acc d) day with
      | some a => some (applyAll a rest day)
      | none =>
        if intervalsOn rest day = [] then none
        else some (applyAll newDayAgg rest day)) = _
    by_cases hd : dateOf d.start = day
    · rw [show aggStep acc d = updateAssoc acc (dateOf d.start) (foldInterval d)
        from rfl, hstep, if_pos hd]
      subst hd
      cases hacc : lookupDay acc (dateOf d.start) with
      | some a =>
        simp [getAgg, hacc, applyAll_cons_match _ _ _ _ rfl]
      | none =>
        have hne : ¬intervalsOn (d :: rest) (dateOf d.start) = [] := by
          simp [intervalsOn]
        simp [getAgg, hacc, applyAll_cons_match _ _ _ _ rfl, hne]
    · rw [show aggStep acc d = updateAssoc acc (dateOf d.start) (foldInterval d)
        from rfl, hstep, if_neg hd]
      cases hacc : lookupDay acc day with
      | some a => simp [hacc, applyAll_cons_skip _ _ _ _ hd]
      | none =>
        have heq : intervalsOn (d :: rest) day = intervalsOn rest day := by
          simp [intervalsOn, hd]
        simp [hacc, applyAll_cons_skip _ _ _ _ hd, heq]

/-- Characterization of the aggregate mapping at a date: absent when no
interval starts that day, otherwise the standing/sitting sums and the
filtered interval list. -/
lemma lookup_aggregate (l : List Interval) (day : Int) :
    lookupDay (aggregate_by_day l) day =
      if intervalsOn l day = [] then none
      else some { standing := standingSum l day
                  sitting := sittingSum l day
                  entries := intervalsOn l day } := by
  have h := lookup_foldl l [] day
  simp only [aggregate_by_day]
  rw [h]
  simp [lookupDay, applyAll, newDayAgg]

/-- A date is absent from the key list exactly when its lookup fails. -/
lemma lookupDay_eq_none_iff : ∀ (m : Daily) (day : Int),
    lookupDay m day = none ↔ day ∉ keysOf m
  | [], day => by simp [lookupDay, keysOf]
  | (k, v) :: rest, day => by
    by_cases h : k = day
    · subst h
      simp [lookupDay, keysOf]
    · simp [lookupDay, keysOf, h, lookupDay_eq_none_iff rest day, Ne.symm h]

/-- C9: the key set of the aggregate is exactly the set of start dates of
the input intervals. -/
theorem c9_key_set (l : List Interval) (day : Int) :
    day ∈ keysOf (aggregate_by_day l) ↔ ∃ iv ∈ l, dateOf iv.start = day := by
  have h1 : day ∈ keysOf (aggregate_by_day l) ↔
      ¬lookupDay (aggregate_by_day l) day = none := by
    rw [lookupDay_eq_none_iff]
    exact not_not.symm
  rw [h1, lookup_aggregate]
  by_cases hnil : intervalsOn l day = []
  · rw [if_pos hnil]
    simp only [not_true_eq_false, false_iff]
    rintro ⟨iv, hiv, hd⟩
    have := List.filter_eq_nil_iff.mp hnil iv hiv
    simp [hd] at this
  · rw [if_neg hnil]
    refine iff_of_true (by simp) ?_
    obtain ⟨iv, hiv⟩ := List.exists_mem_of_ne_nil _ hnil
    obtain ⟨hmem, hpred⟩ := List.mem_filter.mp hiv
    exact ⟨iv, hmem, of_decide_eq_true hpred⟩

/-- The standing and sitting sums for a day add up to the total duration
of the intervals of that day. -/
lemma sum_split : ∀ (l : List Interval) (day : Int),
    standingSum l day + sittingSum l day
      = ((intervalsOn l day).map (fun iv => iv.duration_min)).sum
  | [], day => by simp [standingSum, sittingSum, intervalsOn]
  | d :: rest, day => by
    have ih := sum_split rest day
    simp only [standingSum, sittingSum, intervalsOn] at ih
    simp only [standingSum, sittingSum, intervalsOn, List.map_cons,
      List.sum_cons, List.filter_cons]
    by_cases hd : dateOf d.start = day
    · by_cases hs : d.is_standing = true
      · simp [hd, hs]
        linarith [ih]
      · simp only [Bool.not_eq_true] at hs
        simp [hd, hs]
        linarith [ih]
    · simp [hd]
      linarith [ih]

/-- C10: the aggregate totals of each day sum to the total duration of its
entry list, and that list is exactly the input intervals of that day, in
input order. -/
theorem c10_day_totals (l : List Interval) (day : Int) (agg : DayAgg)
    (h : lookupDay (aggregate_by_day l) day = some agg) :
    agg.standing + agg.sitting
      = (agg.entries.map (fun iv => iv.duration_min)).sum ∧
    agg.entries = l.filter (fun iv => decide (dateOf iv.start = day)) := by
  rw [lookup_aggregate] at h
  by_cases hnil : intervalsOn l day = []
  · rw [if_pos hnil] at h
    cases h
  · rw [if_neg hnil] at h
    cases h
    exact ⟨sum_split l day, rfl⟩

/-- A successful lookup returns the `getAgg` value. -/
lemma lookup_getAgg (m : Daily) (day : Int)
    (h : (lookupDay m day).isSome = true) :
    lookupDay m day = some (getAgg m day) := by
  cases hm : lookupDay m day with
  | none => rw [hm] at h; cases h
  | some a => simp [getAgg, hm]

/-- Witness for C10 at the spec scenario. -/
theorem c10_witness :
    aggEx.standing + aggEx.sitting
      = (aggEx.entries.map (fun iv => iv.duration_min)).sum ∧
    aggEx.entries = (calculate_durations exSamples).filter
      (fun iv => decide (dateOf iv.start = 0)) :=
  c10_day_totals (calculate_durations exSamples) 0 aggEx
    (lookup_getAgg _ 0 (by decide))

/-- C6: aggregation is order-independent — permuting the interval list
leaves the standing and sitting totals of every date unchanged. -/
theorem c6_perm_invariant (l1 l2 : List Interval) (h : l1.Perm l2)
    (day : Int) :
    (lookupDay (aggregate_by_day l1) day).map (fun a => (a.standing, a.sitting))
      = (lookupDay (aggregate_by_day l2) day).map
          (fun a => (a.standing, a.sitting)) := by
  have hfil : (intervalsOn l1 day).Perm (intervalsOn l2 day) := by
    unfold intervalsOn
    exact h.filter _
  have hS : standingSum l1 day = standingSum l2 day := by
    unfold standingSum
    exact (h.map _).sum_eq
  have hT : sittingSum l1 day = sittingSum l2 day := by
    unfold sittingSum
    exact (h.map _).sum_eq
  rw [lookup_aggregate, lookup_aggregate]
  by_cases h1 : intervalsOn l1 day = []
  · have h2 : intervalsOn l2 day = [] := by
      rw [h1] at hfil
      exact hfil.symm.eq_nil
    rw [if_pos h1, if_pos h2]
  · have h2 : ¬intervalsOn l2 day = [] := fun hc => by
      rw [hc] at hfil
      exact h1 hfil.eq_nil
    rw [if_neg h1, if_neg h2]
    simp [hS, hT]

/-- Witness for C6: swapping the two spec-scenario intervals. -/
theorem c6_witness :
    (lookupDay (aggregate_by_day [ivA, ivB]) 0).map
        (fun a => (a.standing, a.sitting))
      = (lookupDay (aggregate_by_day [ivB, ivA]) 0).map
          (fun a => (a.standing, a.sitting)) :=
  c6_perm_invariant [ivA, ivB] [ivB, ivA] (List.Perm.swap ivB ivA []) 0

/-- C3: the zero-day scenario of the spec — two samples on different calendar
dates yield zero intervals, and the summary code then raises the
unguarded `ValueError` from `min(days)` on an empty day list, not an
`EmptyDataset` condition (the modelled error type has no such
constructor because the source has no such guard). -/
theorem c3_unguarded_fault :
    dateOf sA.timestamp ≠ dateOf sB.timestamp ∧
    calculate_durations [sA, sB] = [] ∧
    summary_stats (aggregate_by_day (calculate_durations [sA, sB]))
      = .error (.valueError "min arg is an empty sequence") := by
  refine ⟨by decide, rfl, rfl⟩

end Desk
